import Mathlib

/-!
Shallow embedding of the price-monitoring core of the bot-fiscal-preco
repository: the Product store operations (src/unnamed/part_000), the price
monitor's notification and maintenance logic
(src/services/NotificationService.js, class PriceMonitor) and the scraper
(src/services/PriceScraper.js).  JS numbers are modelled as rationals,
nullable columns as Option, and JS truthiness explicitly where the code
relies on it.
-/

namespace BotFiscal

/-- JS truthiness of a nullable numeric value: null and 0 are falsy. -/
def numTruthy : Option ℚ → Bool
  | none => false
  | some q => decide (q ≠ 0)

/-- A row of the products table as read and written by the model in
src/unnamed/part_000 (class Product). -/
structure Product where
  currentPrice : Option ℚ
  lastPrice : Option ℚ
  targetPrice : ℚ
  promotionThreshold : Option ℚ
  isActive : Bool
  lastChecked : Option ℚ
  checkCount : Nat
  errorCount : Nat
  lastError : Option String
deriving Repr, DecidableEq

/-- Return value of Product.updatePrice. -/
structure PriceUpdate where
  oldPrice : Option ℚ
  newPrice : ℚ
  priceChange : ℚ
deriving Repr, DecidableEq

/-- Product.updatePrice (part_000 lines 250-279): store the new price, move the
previous current price into last_price, bump check_count, reset error_count and
last_error, stamp last_checked, and report the percent change computed as
JS oldPrice ? (new-old)/old*100 : 0. -/
def Product.updatePrice (p : Product) (newPrice now : ℚ) : Product × PriceUpdate :=
  let oldPrice := p.currentPrice
  let p2 : Product :=
    { p with
      currentPrice := some newPrice
      lastPrice := oldPrice
      checkCount := p.checkCount + 1
      errorCount := 0
      lastError := none
      lastChecked := some now }
  let change : ℚ :=
    if numTruthy oldPrice then (newPrice - oldPrice.getD 0) / oldPrice.getD 0 * 100 else 0
  (p2, { oldPrice := oldPrice, newPrice := newPrice, priceChange := change })

/-- Product.incrementError (part_000 lines 286-312): bump error_count and record
the message; when the pre-increment count already reached 4 (so the stored count
reaches the ceiling of 5) a second update forces is_active to false. -/
def Product.incrementError (p : Product) (msg : String) (now : ℚ) : Product :=
  let p2 : Product :=
    { p with errorCount := p.errorCount + 1, lastError := some msg, lastChecked := some now }
  if 4 ≤ p.errorCount then { p2 with isActive := false } else p2

/-- Row filter of Product.findForCheck (part_000 lines 164-195): is_active = 1,
last_checked NULL or older than now minus the interval, and error_count < 5. -/
def findForCheckPred (now intervalMinutes : ℚ) (p : Product) : Bool :=
  p.isActive &&
    (match p.lastChecked with
     | none => true
     | some t => decide (t < now - intervalMinutes)) &&
    decide (p.errorCount < 5)

/-- The three notification kinds PriceMonitor.checkNotifications can emit. -/
inductive NotifKind where
  | targetReached
  | priceDrop
  | priceIncrease
deriving Repr, DecidableEq

/-- PriceMonitor.checkNotifications (NotificationService.js lines 778-824): an
if / else-if chain, so at most one notification fires per check.  JS truthiness
is explicit: the target-reached guard requires oldPrice truthy (non-null and
nonzero), the drop and increase guards require priceChange truthy (nonzero),
and a NULL promotion_threshold coerces to 0 inside the arithmetic. -/
def checkNotifications (targetPrice : ℚ) (promotionThreshold : Option ℚ)
    (newPrice : ℚ) (oldPrice : Option ℚ) (priceChange : ℚ) : List NotifKind :=
  let thr := promotionThreshold.getD 0
  if newPrice ≤ targetPrice ∧ numTruthy oldPrice = true ∧ targetPrice < oldPrice.getD 0 then
    [NotifKind.targetReached]
  else if priceChange ≠ 0 ∧ priceChange ≤ -(thr * 100) then
    [NotifKind.priceDrop]
  else if priceChange ≠ 0 ∧ thr * 200 ≤ priceChange then
    [NotifKind.priceIncrease]
  else
    []

/-- The notification rules exactly as the specification words them, with no
truthiness guards: rule (a) needs only a previous price to exist, rules (b) and
(c) are bare inequalities on priceChange.  Used to compare the spec text
against checkNotifications. -/
def specNotifications (targetPrice thr newPrice : ℚ) (oldPrice : Option ℚ)
    (priceChange : ℚ) : List NotifKind :=
  if newPrice ≤ targetPrice ∧ oldPrice ≠ none ∧ targetPrice < oldPrice.getD 0 then
    [NotifKind.targetReached]
  else if priceChange ≤ -(thr * 100) then
    [NotifKind.priceDrop]
  else if thr * 200 ≤ priceChange then
    [NotifKind.priceIncrease]
  else
    []

/-- Folding a list of failed checks over a product, as consecutive
Product.incrementError calls. -/
def runFailures (p : Product) (msgs : List String) (now : ℚ) : Product :=
  msgs.foldl (fun q m => q.incrementError m now) p

/-- A fresh active product used as a concrete test row. -/
def sampleFresh : Product :=
  { currentPrice := some 120
    lastPrice := none
    targetPrice := 100
    promotionThreshold := some (1/10)
    isActive := true
    lastChecked := none
    checkCount := 0
    errorCount := 0
    lastError := none }

/-- sampleFresh after manual deactivation. -/
def sampleInactive : Product := { sampleFresh with isActive := false }

/-- Numeric value of a list of decimal digit characters. -/
def digitsVal (l : List Char) : Nat :=
  l.foldl (fun n c => 10 * n + (c.toNat - 48)) 0

/-- Anchored regex class test for one or more digits. -/
def allDigits (l : List Char) : Bool :=
  l.all (fun c => c.isDigit)

/-- Matcher for the tail (\.\d{3})* of the Brazilian thousands pattern:
dot-separated groups of exactly three digits. -/
def thousandsTail : List Char → Bool
  | [] => true
  | '.' :: a :: b :: c :: rest => a.isDigit && b.isDigit && c.isDigit && thousandsTail rest
  | _ => false

/-- Matcher for \d:one-to-three:(\.\d{3})* anchored: one to three leading
digits then three-digit dot groups. -/
def thousandsGroups (l : List Char) : Bool :=
  let run := l.takeWhile (fun c => c.isDigit)
  decide (1 ≤ run.length) && decide (run.length ≤ 3) && thousandsTail (l.drop run.length)

/-- Split a character list at its comma when it holds exactly one; the
anchored comma patterns of parsePrice can only match such inputs, and then
only at that comma. -/
def commaSplit (l : List Char) : Option (List Char × List Char) :=
  if l.count ',' = 1 then
    some (l.takeWhile (fun c => c != ','), (l.dropWhile (fun c => c != ',')).tail)
  else none

/-- Exactly two decimal digits. -/
def twoDigits : List Char → Bool
  | [a, b] => a.isDigit && b.isDigit
  | _ => false

/-- Value of the JS Brazilian branch: strip the dots from the integer part and
parse integerPart.decimalPart, the decimal part having exactly two digits. -/
def brazilVal (intpart dec : List Char) : ℚ :=
  ((digitsVal (intpart.filter (fun c => c != '.')) * 100 + digitsVal dec : Nat) : ℚ) / 100

/-- Anchored match of pattern 1 of parsePrice: (\d:1-3:(\.\d:3:)*),(\d:2:). -/
def pat1Match (l : List Char) : Option ℚ :=
  match commaSplit l with
  | some (a, b) => if thousandsGroups a && twoDigits b then some (brazilVal a b) else none
  | none => none

/-- Anchored match of pattern 2 of parsePrice, the US decimal (\d+)\.(\d:2:),
recognised from the reversed character list. -/
def usMatch (l : List Char) : Option ℚ :=
  match l.reverse with
  | b :: a :: '.' :: rest =>
    if a.isDigit && b.isDigit && allDigits rest && decide (rest ≠ []) then
      some (((digitsVal rest.reverse * 100 + digitsVal [a, b] : Nat) : ℚ) / 100)
    else none
  | _ => none

/-- Anchored match of pattern 3 of parsePrice: (\d+),(\d:2:) without thousands
separators; JS handles it through the same Brazilian branch as pattern 1. -/
def pat3Match (l : List Char) : Option ℚ :=
  match commaSplit l with
  | some (a, b) =>
    if allDigits a && decide (a ≠ []) && twoDigits b then some (brazilVal a b) else none
  | none => none

/-- Guard shared by the four pattern branches of parsePrice: each returns its
parsed value when strictly positive and null otherwise. -/
def posOrNone (v : ℚ) : Option ℚ :=
  if 0 < v then some v else none

/-- JS parseFloat restricted to strings of digits and dots (all that remains
after the fallback comma-to-dot replacement): the longest numeric prefix, or
NaN (none) when no digit is consumed. -/
def jsParseFloat (l : List Char) : Option ℚ :=
  let ip := l.takeWhile (fun c => c.isDigit)
  match l.drop ip.length with
  | '.' :: rest =>
    let fp := rest.takeWhile (fun c => c.isDigit)
    if ip.isEmpty && fp.isEmpty then none
    else some ((digitsVal ip : ℚ) + (digitsVal fp : ℚ) / (10 : ℚ) ^ fp.length)
  | _ => if ip.isEmpty then none else some ((digitsVal ip : ℚ))

/-- Fallback branch of parsePrice (line 423-424): replace commas by dots,
parseFloat, and accept only values strictly between 0 and 1000000 (a NaN
compares false and yields null). -/
def parsePriceFallback (clean : List Char) : Option ℚ :=
  match jsParseFloat (clean.map fun c => if c == ',' then '.' else c) with
  | some v => if 0 < v ∧ v < 1000000 then some v else none
  | none => none

/-- PriceScraper.parsePrice (PriceScraper.js lines 381-425): strip the input
to digits, dots and commas; fail on empty; try the four anchored patterns in
order (Brazilian thousands+decimal, US decimal, comma decimal without
thousands, plain integer), the first structural match winning and returning
null if its value is not positive; otherwise run the fallback parse. -/
def parsePrice (s : String) : Option ℚ :=
  let clean := s.toList.filter fun c => c.isDigit || c == '.' || c == ','
  if clean.isEmpty then none
  else
    match pat1Match clean with
    | some v => posOrNone v
    | none =>
      match usMatch clean with
      | some v => posOrNone v
      | none =>
        match pat3Match clean with
        | some v => posOrNone v
        | none =>
          if allDigits clean && decide (clean ≠ []) then posOrNone ((digitsVal clean : ℚ))
          else parsePriceFallback clean

/-- The retryable-error indicator list of PriceScraper.shouldRetry, verbatim
from the source (the first three entries are uppercase). -/
def retryableErrors : List String :=
  ["ECONNRESET", "ECONNREFUSED", "ETIMEDOUT", "timeout", "network", "5", "rate limit"]

/-- JS String.includes as a substring test on character lists. -/
def hasSubstr (hay sub : List Char) : Bool :=
  hay.tails.any fun t => sub.isPrefixOf t

/-- PriceScraper.shouldRetry (lines 504-517): lowercase the error message and
test whether any indicator occurs in it as a substring.  The comparison is
case-sensitive, so the uppercase indicators can never match the lowercased
message. -/
def shouldRetry (msg : String) : Bool :=
  let lower := msg.toList.map Char.toLower
  retryableErrors.any fun ind => hasSubstr lower ind.toList

/-- Outcome of one HTTP attempt inside makeRequest: a usable response body, or
a thrown error message (HTTP status at least 400, block detection, or a
network/axios error). -/
inductive ReqOutcome where
  | ok (body : String)
  | err (msg : String)
deriving Repr, DecidableEq

/-- Retry loop of PriceScraper.makeRequest (lines 124-182) for one URL, with
structural fuel standing for the well-founded measure maxRetries - attempts
(the zero-fuel arm is unreachable from makeRequestLoop): the per-URL counter
starts at the stored value; on a thrown error with attempts < maxRetries and
shouldRetry true, the counter is bumped, a backoff of 2^attempts * 1000 ms is
slept and the request repeats; otherwise the error propagates at once.
Returns the slept delays, the final stored counter and the outcome. -/
def makeRequestGo (maxRetries : Nat) (attempt : Nat → ReqOutcome) :
    Nat → Nat → List Nat × Nat × ReqOutcome
  | fuel, attempts =>
    match attempt attempts with
    | .ok b => ([], attempts, .ok b)
    | .err m =>
      if attempts < maxRetries && shouldRetry m then
        match fuel with
        | 0 => ([], attempts, .err m)
        | fuel' + 1 =>
          let r := makeRequestGo maxRetries attempt fuel' (attempts + 1)
          (2 ^ attempts * 1000 :: r.1, r.2.1, r.2.2)
      else ([], attempts, .err m)

/-- makeRequest entered with a stored per-URL attempts counter. -/
def makeRequestLoop (maxRetries : Nat) (attempt : Nat → ReqOutcome)
    (attempts : Nat) : List Nat × Nat × ReqOutcome :=
  makeRequestGo maxRetries attempt (maxRetries - attempts) attempts

/-- The PriceMonitor fields involved in the re-entrancy guard of executeCheck
(NotificationService.js lines 631-704): whether this.currentCheck is set,
plus a ghost counter of concurrently executing check cycles. -/
structure MonitorGuard where
  currentCheck : Bool
  inFlight : Nat
deriving Repr, DecidableEq

/-- Entry of executeCheck: a trigger arriving while currentCheck is set
returns at once (the trigger is dropped, never queued); otherwise the guard
is taken and a cycle starts.  The Bool reports whether a cycle started. -/
def executeCheckEnter (s : MonitorGuard) : MonitorGuard × Bool :=
  if s.currentCheck then (s, false)
  else ({ currentCheck := true, inFlight := s.inFlight + 1 }, true)

/-- The finally block of executeCheck: when the in-flight cycle finishes, the
guard is unconditionally cleared. -/
def executeCheckExit (s : MonitorGuard) : MonitorGuard :=
  { currentCheck := false, inFlight := s.inFlight - 1 }

/-- Scheduler events hitting the guard: a cron or timeout trigger calling
executeCheck, and the completion of the running cycle. -/
inductive MonEvent where
  | trigger
  | finish
deriving Repr, DecidableEq

/-- One event step of the monitor guard; a finish with no cycle running is a
no-op (the runtime never produces it, since only a started cycle finishes). -/
def monStep (s : MonitorGuard) : MonEvent → MonitorGuard
  | MonEvent.trigger => (executeCheckEnter s).1
  | MonEvent.finish => if s.currentCheck then executeCheckExit s else s

/-- Run a sequence of scheduler events over the guard. -/
def monRun (s : MonitorGuard) (evs : List MonEvent) : MonitorGuard :=
  evs.foldl monStep s

/-- The freshly constructed PriceMonitor: no currentCheck, nothing running. -/
def monInit : MonitorGuard := { currentCheck := false, inFlight := 0 }

/-- PriceScraper.chunkArray (lines 590-596), transliterating the JS loop
(i = 0, size, 2*size, ... while i < length, pushing slice(i, i + size)): the
iteration count is the ceiling of length / size.  The JS loop never
terminates for size = 0; the model is meaningful only for positive sizes. -/
def chunkArray {α : Type} (size : Nat) (l : List α) : List (List α) :=
  (List.range ((l.length + size - 1) / size)).map fun i => (l.drop (i * size)).take size

/-- One settled entry of the Promise.allSettled call in scrapeBatch: a
fulfilled scrape contributes its result value; a rejected promise is replaced
by a failure record carrying the URL and the rejection reason. -/
def settleOne {R : Type} (f : String → R ⊕ String) (url : String) :
    R ⊕ (String × String) :=
  match f url with
  | Sum.inl r => Sum.inl r
  | Sum.inr reason => Sum.inr (url, reason)

/-- Result of a scrapeBatch run: the per-URL outcomes in push order, and the
total inter-chunk delay slept. -/
structure BatchRun (R : Type) where
  results : List (R ⊕ (String × String))
  totalDelayMs : Nat
deriving DecidableEq

/-- PriceScraper.scrapeBatch (lines 532-583) with a fixed outcome function
standing for the awaited scrapePrice promises: chunk the URLs by the
concurrency, settle every URL of each chunk in order (one outcome per URL, a
rejection never aborting its chunk), and sleep delayBetween ms after every
chunk except the last. -/
def scrapeBatch {R : Type} (urls : List String) (concurrency delayBetween : Nat)
    (f : String → R ⊕ String) : BatchRun R :=
  let chunks := chunkArray concurrency urls
  { results := (chunks.map fun c => c.map (settleOne f)).flatten
    totalDelayMs := (chunks.length - 1) * delayBetween }

/-- A concrete per-URL outcome used by the batch witness: one rejected URL. -/
def sampleOutcome : String → Nat ⊕ String :=
  fun u => if u = "u2" then Sum.inr "boom" else Sum.inl 1

/-- Whitespace characters of the model alphabet (the JS regex class and the
trim set also cover rarer code points that never arise here). -/
def isWsCh (c : Char) : Bool :=
  c == ' ' || c == '\t' || c == '\n' || c == '\r'

/-- JS String.prototype.trim on a character list. -/
def trimChars (l : List Char) : List Char :=
  ((l.dropWhile isWsCh).reverse.dropWhile isWsCh).reverse

/-- Replace every maximal whitespace run by a single space, tracking whether
the previous character was whitespace (the /s+/g global replace). -/
def collapseWsGo : Bool → List Char → List Char
  | _, [] => []
  | prevWs, c :: rest =>
    if isWsCh c then
      if prevWs then collapseWsGo true rest
      else ' ' :: collapseWsGo true rest
    else c :: collapseWsGo false rest

/-- The first replace of cleanProductName. -/
def collapseWs (l : List Char) : List Char :=
  collapseWsGo false l

/-- PriceScraper.cleanProductName (lines 368-375): collapse whitespace runs to
single spaces, drop remaining newline, carriage-return and tab characters
(none remain after the collapse), map the separator glyphs to dashes, trim,
and truncate to 150 characters. -/
def cleanProductName (s : String) : String :=
  let l1 := collapseWs s.toList
  let l2 := l1.filter fun c => !(c == '\n' || c == '\r' || c == '\t')
  let l3 := l2.map fun c => if c == '|' || c == '•' || c == '·' then '-' else c
  String.mk ((trimChars l3).take 150)

/-- The name-relevant view of a parsed page: the text of the first element
matching each selector (the empty string when nothing matches, as cheerio's
text() returns) and the page title text. -/
structure NameDoc where
  bySelector : String → String
  title : String

/-- The generic name-selector cascade of extractProductName, verbatim. -/
def genericNameSelectors : List String :=
  ["h1", ".product-title", ".product-name", "#productTitle", ".item-title",
   ".title", ".product-info h1", ".product-header h1",
   "[data-testid=\"product-title\"]"]

/-- One selector pass of extractProductName: the first selector whose trimmed
text is nonempty and shorter than 200 characters. -/
def firstValidName (doc : NameDoc) : List String → Option String
  | [] => none
  | sel :: rest =>
    let name := trimChars (doc.bySelector sel).toList
    if 0 < name.length ∧ name.length < 200 then some (String.mk name)
    else firstValidName doc rest

/-- PriceScraper.extractProductName (lines 324-362): site-specific name
selectors, then the generic cascade, each candidate accepted only with
trimmed length in (0, 200); finally the page title, accepted whenever it is
nonempty after trimming — the title branch checks no upper length bound.
Every accepted candidate goes through cleanProductName. -/
def extractProductName (siteNameSelectors : List String) (doc : NameDoc) :
    Option String :=
  match firstValidName doc siteNameSelectors with
  | some name => some (cleanProductName name)
  | none =>
    match firstValidName doc genericNameSelectors with
    | some name => some (cleanProductName name)
    | none =>
      let t := trimChars doc.title.toList
      if 0 < t.length then some (cleanProductName (String.mk t)) else none

/-- extractProductName as the specification words it: every candidate,
the title fallback included, is accepted only with trimmed length strictly
between 0 and 200.  Used to compare the spec text against the code. -/
def extractProductNameSpec (siteNameSelectors : List String) (doc : NameDoc) :
    Option String :=
  match firstValidName doc siteNameSelectors with
  | some name => some (cleanProductName name)
  | none =>
    match firstValidName doc genericNameSelectors with
    | some name => some (cleanProductName name)
    | none =>
      let t := trimChars doc.title.toList
      if 0 < t.length ∧ t.length < 200 then some (cleanProductName (String.mk t))
      else none

/-- A page on which no name selector matches and whose title is 200
characters long. -/
def longTitleDoc : NameDoc :=
  { bySelector := fun _ => "", title := String.mk (List.replicate 200 'a') }

/-- A page whose h1 carries a plain product name. -/
def plainNameDoc : NameDoc :=
  { bySelector := fun sel => if sel = "h1" then "Produto X" else "", title := "t" }

/-- What processCheckResults and performMaintenance decide at the end of one
completed check cycle (NotificationService.js lines 829-895). -/
structure CycleActions where
  summary : Bool
  maintenance : Bool
  backup : Bool
deriving Repr, DecidableEq

/-- End-of-cycle decisions as a function of stats.totalChecks at the moment
processCheckResults runs — the count of previously completed cycles, because
the finally block increments the counter only afterwards — and of the number
of notifications fired in the cycle: a summary notification when at least 5
fired; maintenance when the counter is divisible by 10; and, inside
maintenance, a database backup when it is also divisible by 50. -/
def cycleActions (totalChecksBefore notifs : Nat) : CycleActions :=
  { summary := decide (5 ≤ notifs)
    maintenance := decide (totalChecksBefore % 10 = 0)
    backup := decide (totalChecksBefore % 10 = 0) && decide (totalChecksBefore % 50 = 0) }

/-- Run successive completed check cycles from a given totalChecks counter:
one CycleActions entry per cycle, the list holding each cycle's notification
count. -/
def runCycles (t : Nat) : List Nat → List CycleActions
  | [] => []
  | k :: rest => cycleActions t k :: runCycles (t + 1) rest

/-- Row filter of Product.reactivateErrorProducts (part_000 lines 480-502):
inactive, a positive error count, and last checked more than 24 hours ago
(times in minutes; a NULL last_checked never satisfies the SQL comparison). -/
def reactivatePred (now : ℚ) (p : Product) : Bool :=
  !p.isActive && decide (0 < p.errorCount) &&
    (match p.lastChecked with
     | none => false
     | some t => decide (t < now - 24 * 60))

/-- Effect of Product.reactivateErrorProducts on a selected row. -/
def reactivate (p : Product) : Product :=
  { p with isActive := true, errorCount := 0, lastError := none }

/-- First price candidate accepted by parsePrice, in the cascade order of
extractPrice and tryExtractPrice (site selectors with their texts and
data-price/value/content/title attributes, then the generic selectors, then
the regex captures over the raw markup); the JS truthiness test on the parsed
value coincides with isSome because parsePrice only returns positive
values. -/
def extractPriceCands : List String → Option ℚ
  | [] => none
  | c :: rest =>
    match parsePrice c with
    | some v => some v
    | none => extractPriceCands rest

/-- The parsed page as consumed by extractData: ordered price candidates plus
the name view. -/
structure PageDoc where
  priceCands : List String
  siteNameSelectors : List String
  nameDoc : NameDoc

/-- Return object of extractData. -/
structure ExtractedData where
  price : Option ℚ
  name : Option String
  success : Bool
  error : Option String

/-- PriceScraper.extractData (lines 190-220): extract price and name; success
requires a non-null strictly positive price; a falsy name falls back to the
fixed placeholder; loadError stands for an exception thrown while loading or
extracting, converted by the catch block into a failure record. -/
def extractData (doc : PageDoc) (loadError : Option String) : ExtractedData :=
  match loadError with
  | some m =>
    { price := none, name := none, success := false,
      error := some ("Erro na extração: " ++ m) }
  | none =>
    let price := extractPriceCands doc.priceCands
    let name := extractProductName doc.siteNameSelectors doc.nameDoc
    let success :=
      match price with
      | some v => decide (0 < v)
      | none => false
    { price := price
      name := some
        (match name with
         | some s => if s = "" then "Produto sem nome" else s
         | none => "Produto sem nome")
      success := success
      error := if success then none else some "Não foi possível extrair o preço" }

/-- What one scrapePrice call can run into, from the caller's view: URL
validation fails, makeRequest ultimately throws, or a body is fetched and
extraction runs (loadError modelling a parser throw caught inside
extractData). -/
inductive FetchStep where
  | invalidUrl
  | requestThrew (msg : String)
  | fetched (doc : PageDoc) (loadError : Option String)

/-- The result object scrapePrice always returns (URL/domain/timing fields
omitted: they carry no claim content). -/
structure ScrapeResult where
  price : Option ℚ
  name : Option String
  success : Bool
  error : Option String

/-- PriceScraper.scrapePrice (lines 63-117): every exception — invalid URL,
request failure after retries, extraction error — is caught and converted
into a failure result, so a result object is always returned; on a fetched
page the result copies extractData's fields. -/
def scrapePrice (step : FetchStep) : ScrapeResult :=
  match step with
  | FetchStep.invalidUrl =>
    { price := none, name := none, success := false, error := some "URL inválida" }
  | FetchStep.requestThrew m =>
    { price := none, name := none, success := false, error := some m }
  | FetchStep.fetched doc le =>
    let d := extractData doc le
    { price := d.price, name := d.name, success := d.success, error := d.error }

/-- Claim C1 counterexample: for a product created with the default NULL
promotion_threshold (which the code coerces to 0), previous price 100, new
price 100 and hence priceChange 0, the spec's rule (b) inequality
0 ≤ -(0*100) holds, so the claimed rules fire a price-drop notification, but
checkNotifications fires nothing because the JS guard priceChange is falsy. -/
theorem checkNotifications_zero_change_cex :
    checkNotifications 50 none 100 (some 100) 0 = [] ∧
    specNotifications 50 0 100 (some 100) 0 = [NotifKind.priceDrop] := by
  constructor
  · decide
  · simp only [specNotifications]
    norm_num

/-- Claim C1 (amended): checkNotifications evaluates the three rules in fixed
precedence with first match only and at most one rule fires; target-reached
fires exactly under its guard (with the previous price required truthy, i.e.
non-null and nonzero), price-drop and price-increase additionally require a
nonzero priceChange; and in the concrete case targetPrice = 100,
promotionThreshold = 0.1, previous price 120, new price 95, only
target-reached fires even though the drop exceeds 10 percent. -/
theorem checkNotifications_precedence (target : ℚ) (thr : Option ℚ) (newP : ℚ)
    (oldP : Option ℚ) (ch : ℚ) :
    (checkNotifications target thr newP oldP ch).length ≤ 1 ∧
    (checkNotifications target thr newP oldP ch = [NotifKind.targetReached] ↔
      (newP ≤ target ∧ numTruthy oldP = true ∧ target < oldP.getD 0)) ∧
    (checkNotifications target thr newP oldP ch = [NotifKind.priceDrop] ↔
      (¬(newP ≤ target ∧ numTruthy oldP = true ∧ target < oldP.getD 0) ∧
        ch ≠ 0 ∧ ch ≤ -(thr.getD 0 * 100))) ∧
    (checkNotifications target thr newP oldP ch = [NotifKind.priceIncrease] ↔
      (¬(newP ≤ target ∧ numTruthy oldP = true ∧ target < oldP.getD 0) ∧
        ¬(ch ≠ 0 ∧ ch ≤ -(thr.getD 0 * 100)) ∧
        ch ≠ 0 ∧ thr.getD 0 * 200 ≤ ch)) ∧
    checkNotifications 100 (some (1/10)) 95 (some 120) ((95 - 120) / 120 * 100) =
      [NotifKind.targetReached] := by
  refine ⟨?_, ?_, ?_, ?_, by decide⟩ <;>
    · simp only [checkNotifications]
      split_ifs with h1 h2 h3 <;> simp_all

/-- Claim C2: errorCount increments by one on each failed check and resets to 0
on any successful update; a product with errorCount 0 that fails exactly 5
consecutive checks ends with errorCount 5 and isActive forced false, and such a
product — like any inactive product or any product with errorCount at least
5 — is never selected by the due-for-check query, so a 6th scheduled check is
never attempted. -/
theorem errorCeiling_deactivates (p r : Product) (msgs : List String)
    (now interval np : ℚ) (em : String)
    (h0 : p.errorCount = 0) (h5 : msgs.length = 5)
    (hr : r.isActive = false ∨ 5 ≤ r.errorCount) :
    (runFailures p msgs now).errorCount = 5 ∧
    (runFailures p msgs now).isActive = false ∧
    findForCheckPred now interval (runFailures p msgs now) = false ∧
    (p.updatePrice np now).1.errorCount = 0 ∧
    (p.incrementError em now).errorCount = p.errorCount + 1 ∧
    findForCheckPred now interval r = false := by
  rcases msgs with _ | ⟨m1, _ | ⟨m2, _ | ⟨m3, _ | ⟨m4, _ | ⟨m5, rest⟩⟩⟩⟩⟩ <;>
    simp only [List.length] at h5 <;> try omega
  have hrest : rest = [] := by
    cases rest
    · rfl
    · simp at h5
  subst hrest
  refine ⟨?_, ?_, ?_, ?_, ?_, ?_⟩
  · simp [runFailures, Product.incrementError, h0]
  · simp [runFailures, Product.incrementError, h0]
  · simp [findForCheckPred, runFailures, Product.incrementError, h0]
  · simp [Product.updatePrice]
  · simp [Product.incrementError]
    split <;> rfl
  · rcases hr with hr | hr
    · simp [findForCheckPred, hr]
    · simp [findForCheckPred]
      intro _ _
      omega

/-- Witness for errorCeiling_deactivates at the concrete fresh product. -/
theorem errorCeiling_deactivates_witness :
    sampleFresh.errorCount = 0 ∧
    (["a", "b", "c", "d", "e"] : List String).length = 5 ∧
    (sampleInactive.isActive = false ∨ 5 ≤ sampleInactive.errorCount) ∧
    ((runFailures sampleFresh ["a", "b", "c", "d", "e"] 0).errorCount = 5 ∧
      (runFailures sampleFresh ["a", "b", "c", "d", "e"] 0).isActive = false ∧
      findForCheckPred 0 60 (runFailures sampleFresh ["a", "b", "c", "d", "e"] 0) = false ∧
      (sampleFresh.updatePrice 95 0).1.errorCount = 0 ∧
      (sampleFresh.incrementError "x" 0).errorCount = sampleFresh.errorCount + 1 ∧
      findForCheckPred 0 60 sampleInactive = false) :=
  ⟨rfl, rfl, Or.inl rfl,
    errorCeiling_deactivates sampleFresh sampleInactive ["a", "b", "c", "d", "e"]
      0 60 95 "x" rfl rfl (Or.inl rfl)⟩

/-- Claim C5: Product.updatePrice reports a price change of (new-old)/old*100
when a previous current price exists and 0 when it is absent (the two agree at
old = 0 since division by zero is 0 in the rationals, matching the JS falsy
branch), and the same update moves the old current price into lastPrice,
stores the new price, bumps checkCount by one, and resets errorCount and
lastError. -/
theorem updatePrice_spec (p : Product) (np now : ℚ) :
    ((p.updatePrice np now).2.priceChange =
      match p.currentPrice with
      | some old => (np - old) / old * 100
      | none => 0) ∧
    (p.updatePrice np now).2.oldPrice = p.currentPrice ∧
    (p.updatePrice np now).2.newPrice = np ∧
    (p.updatePrice np now).1.lastPrice = p.currentPrice ∧
    (p.updatePrice np now).1.currentPrice = some np ∧
    (p.updatePrice np now).1.checkCount = p.checkCount + 1 ∧
    (p.updatePrice np now).1.errorCount = 0 ∧
    (p.updatePrice np now).1.lastError = none := by
  refine ⟨?_, rfl, rfl, rfl, rfl, rfl, rfl, rfl⟩
  rcases hc : p.currentPrice with _ | old
  · simp [Product.updatePrice, numTruthy, hc]
  · by_cases h0 : old = 0
    · subst h0
      simp [Product.updatePrice, numTruthy, hc]
    · simp [Product.updatePrice, numTruthy, hc, h0]

theorem posOrNone_pos (x v : ℚ) (h : posOrNone x = some v) : 0 < v := by
  unfold posOrNone at h
  split at h
  · cases h
    assumption
  · cases h

theorem parsePriceFallback_pos (clean : List Char) (w : ℚ)
    (h : parsePriceFallback clean = some w) : 0 < w ∧ w < 1000000 := by
  unfold parsePriceFallback at h
  split at h
  · split at h
    · cases h
      assumption
    · cases h
  · cases h

theorem parsePrice_pos_of_some (s : String) (v : ℚ) (h : parsePrice s = some v) :
    0 < v := by
  simp only [parsePrice] at h
  split at h
  · cases h
  · split at h
    · exact posOrNone_pos _ _ h
    · split at h
      · exact posOrNone_pos _ _ h
      · split at h
        · exact posOrNone_pos _ _ h
        · split at h
          · exact posOrNone_pos _ _ h
          · exact (parsePriceFallback_pos _ _ h).1

/-- Claim C3 counterexample: parsePrice strips every character that is not a
digit, dot or comma, so the minus sign of the input is discarded and the
result is 5, not null as the claim states. -/
theorem parsePrice_minus_five_cex : parsePrice "-5" = some 5 := by decide

/-- Claim C3 (amended): the spec's test vectors hold except for the negative
input, where the sign is stripped and parsePrice returns 5; every value
parsePrice accepts is strictly positive (so a result that would be
non-positive yields null), and every value accepted on the fallback path lies
strictly between 0 and 1000000. -/
theorem parsePrice_vectors (s : String) (v : ℚ) (clean : List Char) (w : ℚ)
    (h1 : parsePrice s = some v) (h2 : parsePriceFallback clean = some w) :
    parsePrice "1.234,56" = some (123456 / 100) ∧
    parsePrice "1234.56" = some (123456 / 100) ∧
    parsePrice "abc" = none ∧
    parsePrice "R$ 99,90" = some (999 / 10) ∧
    parsePrice "-5" = some 5 ∧
    0 < v ∧
    (0 < w ∧ w < 1000000) := by
  refine ⟨?_, ?_, by decide, ?_, by decide,
    parsePrice_pos_of_some s v h1, parsePriceFallback_pos clean w h2⟩
  · rw [show parsePrice "1.234,56" = posOrNone ((123456 : ℚ) / 100) from rfl, posOrNone]
    norm_num
  · rw [show parsePrice "1234.56" = posOrNone ((123456 : ℚ) / 100) from rfl, posOrNone]
    norm_num
  · rw [show parsePrice "R$ 99,90" = posOrNone ((9990 : ℚ) / 100) from rfl, posOrNone]
    norm_num

/-- Witness for parsePrice_vectors at the concrete input 7. -/
theorem parsePrice_vectors_witness :
    parsePrice "7" = some 7 ∧
    parsePriceFallback ['7'] = some 7 ∧
    (parsePrice "1.234,56" = some (123456 / 100) ∧
      parsePrice "1234.56" = some (123456 / 100) ∧
      parsePrice "abc" = none ∧
      parsePrice "R$ 99,90" = some (999 / 10) ∧
      parsePrice "-5" = some 5 ∧
      0 < (7 : ℚ) ∧
      (0 < (7 : ℚ) ∧ (7 : ℚ) < 1000000)) :=
  ⟨by decide, by decide, parsePrice_vectors "7" 7 ['7'] 7 (by decide) (by decide)⟩

/-- Claim C4: the code intends connection reset, connection refused and
timed-out socket errors to be retryable (the indicator list names their codes)
but lowercases the message before a case-sensitive comparison, so those error
codes are never classified as retryable and such failures propagate at once
with no backoff retry, while a lowercase indicator such as axios timeout
wording still matches. -/
theorem shouldRetry_case_bug :
    shouldRetry "ECONNRESET" = false ∧
    shouldRetry "connect ECONNREFUSED 10.0.0.1:443" = false ∧
    shouldRetry "timeout of 10000ms exceeded" = true ∧
    makeRequestLoop 3 (fun _ => ReqOutcome.err "ECONNRESET") 0 =
      ([], 0, ReqOutcome.err "ECONNRESET") := by
  refine ⟨by decide, by decide, by decide, by decide⟩

theorem monRun_inFlight (evs : List MonEvent) :
    ∀ s : MonitorGuard, s.inFlight = (if s.currentCheck then 1 else 0) →
      (monRun s evs).inFlight = (if (monRun s evs).currentCheck then 1 else 0) := by
  induction evs with
  | nil => exact fun s h => h
  | cons e evs ih =>
    intro s h
    apply ih
    cases e <;>
      simp only [monStep, executeCheckEnter, executeCheckExit] <;>
      split_ifs with hc <;> simp_all

/-- Claim C6: along any sequence of scheduler events from the fresh monitor,
at most one check cycle is ever in flight; a trigger arriving while
currentCheck is set leaves the state unchanged and starts nothing (dropped,
not queued); the finally block always clears the guard, and a trigger right
after it starts a new cycle. -/
theorem executeCheck_no_overlap (evs : List MonEvent) (s : MonitorGuard)
    (hbusy : s.currentCheck = true) :
    (monRun monInit evs).inFlight ≤ 1 ∧
    executeCheckEnter s = (s, false) ∧
    (executeCheckExit s).currentCheck = false ∧
    (executeCheckEnter (executeCheckExit s)).2 = true := by
  refine ⟨?_, ?_, rfl, rfl⟩
  · have h := monRun_inFlight evs monInit (by rfl)
    split at h <;> omega
  · simp [executeCheckEnter, hbusy]

/-- Witness for executeCheck_no_overlap on a busy guard after two triggers. -/
theorem executeCheck_no_overlap_witness :
    (MonitorGuard.mk true 1).currentCheck = true ∧
    ((monRun monInit [MonEvent.trigger, MonEvent.trigger]).inFlight ≤ 1 ∧
      executeCheckEnter (MonitorGuard.mk true 1) = (MonitorGuard.mk true 1, false) ∧
      (executeCheckExit (MonitorGuard.mk true 1)).currentCheck = false ∧
      (executeCheckEnter (executeCheckExit (MonitorGuard.mk true 1))).2 = true) :=
  ⟨rfl, executeCheck_no_overlap [MonEvent.trigger, MonEvent.trigger]
    (MonitorGuard.mk true 1) rfl⟩

theorem chunkArray_nil {α : Type} (size : Nat) :
    chunkArray size ([] : List α) = [] := by
  unfold chunkArray
  cases size with
  | zero =>
    rw [show (List.length ([] : List α) + 0 - 1) / 0 = 0 from by simp]
    rfl
  | succ s =>
    have h : (List.length ([] : List α) + (s + 1) - 1) / (s + 1) = 0 :=
      Nat.div_eq_of_lt (by simp)
    rw [h]
    rfl

theorem chunkArray_cons {α : Type} (m : Nat) (a : α) (l : List α) :
    chunkArray (m + 1) (a :: l) =
      (a :: l.take m) :: chunkArray (m + 1) (l.drop m) := by
  unfold chunkArray
  have h1 : ((a :: l).length + (m + 1) - 1) / (m + 1) = l.length / (m + 1) + 1 := by
    have e : (a :: l).length + (m + 1) - 1 = l.length + (m + 1) := by
      simp only [List.length_cons]
      omega
    rw [e, Nat.add_div_right _ (Nat.succ_pos m)]
  have h2 : ((l.drop m).length + (m + 1) - 1) / (m + 1) = l.length / (m + 1) := by
    rw [List.length_drop]
    rcases Nat.le_total m l.length with h | h
    · have e : l.length - m + (m + 1) - 1 = l.length := by omega
      rw [e]
    · have e : l.length - m + (m + 1) - 1 = m := by omega
      rw [e, Nat.div_eq_of_lt (by omega), Nat.div_eq_of_lt (by omega)]
  rw [h1, h2, List.range_succ_eq_map, List.map_cons, List.map_map]
  congr 1
  · show ((a :: l).drop (0 * (m + 1))).take (m + 1) = a :: l.take m
    simp [List.take_succ_cons]
  · congr 1
    funext i
    show ((a :: l).drop (Nat.succ i * (m + 1))).take (m + 1) =
      ((l.drop m).drop (i * (m + 1))).take (m + 1)
    have e : Nat.succ i * (m + 1) = (i * (m + 1) + m) + 1 := by
      rw [Nat.succ_mul]
      omega
    rw [e, List.drop_succ_cons, List.drop_drop]
    congr 2
    omega

theorem chunkArray_flatten {α : Type} (m n : Nat) :
    ∀ l : List α, l.length ≤ n → (chunkArray (m + 1) l).flatten = l := by
  induction n with
  | zero =>
    intro l h
    have hl : l = [] := by
      cases l
      · rfl
      · simp at h
    subst hl
    rw [chunkArray_nil]
    rfl
  | succ n ih =>
    intro l h
    cases l with
    | nil =>
      rw [chunkArray_nil]
      rfl
    | cons a t =>
      have hlen : (t.drop m).length ≤ n := by
        rw [List.length_drop]
        simp only [List.length_cons] at h
        omega
      rw [chunkArray_cons, List.flatten_cons, ih (t.drop m) hlen, List.cons_append,
        List.take_append_drop]

theorem chunkArray_chunk_size {α : Type} (m n : Nat) :
    ∀ l : List α, l.length ≤ n →
      ∀ c ∈ chunkArray (m + 1) l, c ≠ [] ∧ c.length ≤ m + 1 := by
  induction n with
  | zero =>
    intro l h c hc
    have hl : l = [] := by
      cases l
      · rfl
      · simp at h
    subst hl
    rw [chunkArray_nil] at hc
    simp at hc
  | succ n ih =>
    intro l h c hc
    cases l with
    | nil =>
      rw [chunkArray_nil] at hc
      simp at hc
    | cons a t =>
      have hlen : (t.drop m).length ≤ n := by
        rw [List.length_drop]
        simp only [List.length_cons] at h
        omega
      rw [chunkArray_cons] at hc
      rcases List.mem_cons.1 hc with rfl | hmem
      · refine ⟨by simp, ?_⟩
        simp only [List.length_cons, List.length_take]
        omega
      · exact ih (t.drop m) hlen c hmem

theorem chunkArray_dropLast_size {α : Type} (m n : Nat) :
    ∀ l : List α, l.length ≤ n →
      ∀ c ∈ (chunkArray (m + 1) l).dropLast, c.length = m + 1 := by
  induction n with
  | zero =>
    intro l h c hc
    have hl : l = [] := by
      cases l
      · rfl
      · simp at h
    subst hl
    rw [chunkArray_nil] at hc
    simp at hc
  | succ n ih =>
    intro l h c hc
    cases l with
    | nil =>
      rw [chunkArray_nil] at hc
      simp at hc
    | cons a t =>
      have hlen : (t.drop m).length ≤ n := by
        rw [List.length_drop]
        simp only [List.length_cons] at h
        omega
      rw [chunkArray_cons] at hc
      by_cases hrec : chunkArray (m + 1) (t.drop m) = []
      · rw [hrec] at hc
        simp at hc
      · rw [List.dropLast_cons_of_ne_nil hrec] at hc
        rcases List.mem_cons.1 hc with rfl | hmem
        · have hne : t.drop m ≠ [] := by
            intro h0
            rw [h0, chunkArray_nil] at hrec
            exact hrec rfl
          have hpos := List.length_pos.2 hne
          rw [List.length_drop] at hpos
          simp only [List.length_cons, List.length_take]
          omega
        · exact ih (t.drop m) hlen c hmem

theorem chunkArray_length {α : Type} (size : Nat) (l : List α) :
    (chunkArray size l).length = (l.length + size - 1) / size := by
  simp [chunkArray]

theorem chunkArray_map {α β : Type} (g : α → β) (size : Nat) (l : List α) :
    (chunkArray size l).map (List.map g) = chunkArray size (l.map g) := by
  unfold chunkArray
  rw [List.length_map, List.map_map]
  congr 1
  funext i
  show List.map g ((l.drop (i * size)).take size) = ((l.map g).drop (i * size)).take size
  rw [List.map_take, List.map_drop]

/-- Claim C7: scrapeBatch partitions the URL list into consecutive chunks of
the concurrency size C (every chunk nonempty and of size at most C, every
chunk but the last of size exactly C, and the chunks concatenate back to the
input in order); it settles every URL to exactly one outcome in input order
with all-settled semantics (a rejection becomes that URL's failure record,
never aborting its chunk), so there are exactly N outcomes; the number of
chunks is the ceiling of N / C, and the total slept delay is
(that number - 1) * delayBetween, since the delay runs between consecutive
chunks but not after the last. -/
theorem scrapeBatch_spec {R : Type} (urls : List String) (C D : Nat)
    (f : String → R ⊕ String) (hC : 1 ≤ C) :
    (chunkArray C urls).flatten = urls ∧
    (∀ c ∈ chunkArray C urls, c ≠ [] ∧ c.length ≤ C) ∧
    (∀ c ∈ (chunkArray C urls).dropLast, c.length = C) ∧
    (scrapeBatch urls C D f).results = urls.map (settleOne f) ∧
    (scrapeBatch urls C D f).results.length = urls.length ∧
    (chunkArray C urls).length = (urls.length + C - 1) / C ∧
    (scrapeBatch urls C D f).totalDelayMs = ((urls.length + C - 1) / C - 1) * D := by
  obtain ⟨m, rfl⟩ : ∃ m, C = m + 1 := ⟨C - 1, by omega⟩
  have hres : (scrapeBatch urls (m + 1) D f).results = urls.map (settleOne f) := by
    show ((chunkArray (m + 1) urls).map fun c => c.map (settleOne f)).flatten =
      urls.map (settleOne f)
    rw [chunkArray_map, chunkArray_flatten m (urls.map (settleOne f)).length _ le_rfl]
  refine ⟨chunkArray_flatten m urls.length urls le_rfl,
    chunkArray_chunk_size m urls.length urls le_rfl,
    chunkArray_dropLast_size m urls.length urls le_rfl,
    hres, ?_, ?_, ?_⟩
  · rw [hres, List.length_map]
  · exact chunkArray_length (m + 1) urls
  · show ((chunkArray (m + 1) urls).length - 1) * D = ((urls.length + (m + 1) - 1) / (m + 1) - 1) * D
    rw [chunkArray_length]

/-- Witness for scrapeBatch_spec: four URLs, concurrency 3, one rejection. -/
theorem scrapeBatch_spec_witness :
    1 ≤ 3 ∧
    ((chunkArray 3 ["u1", "u2", "u3", "u4"]).flatten = ["u1", "u2", "u3", "u4"] ∧
      (∀ c ∈ chunkArray 3 ["u1", "u2", "u3", "u4"], c ≠ [] ∧ c.length ≤ 3) ∧
      (∀ c ∈ (chunkArray 3 ["u1", "u2", "u3", "u4"]).dropLast, c.length = 3) ∧
      (scrapeBatch ["u1", "u2", "u3", "u4"] 3 2000 sampleOutcome).results =
        ["u1", "u2", "u3", "u4"].map (settleOne sampleOutcome) ∧
      (scrapeBatch ["u1", "u2", "u3", "u4"] 3 2000 sampleOutcome).results.length =
        (["u1", "u2", "u3", "u4"] : List String).length ∧
      (chunkArray 3 ["u1", "u2", "u3", "u4"]).length = ((["u1", "u2", "u3", "u4"] : List String).length + 3 - 1) / 3 ∧
      (scrapeBatch ["u1", "u2", "u3", "u4"] 3 2000 sampleOutcome).totalDelayMs =
        (((["u1", "u2", "u3", "u4"] : List String).length + 3 - 1) / 3 - 1) * 2000) :=
  ⟨by decide, scrapeBatch_spec ["u1", "u2", "u3", "u4"] 3 2000 sampleOutcome (by decide)⟩

theorem cleanProductName_length (s : String) : (cleanProductName s).length ≤ 150 := by
  unfold cleanProductName
  show (String.mk _).length ≤ 150
  show (List.take 150 _).length ≤ 150
  rw [List.length_take]
  omega

theorem firstValidName_bounds (doc : NameDoc) (sels : List String) (c : String)
    (h : firstValidName doc sels = some c) : 0 < c.length ∧ c.length < 200 := by
  induction sels with
  | nil => cases h
  | cons sel rest ih =>
    simp only [firstValidName] at h
    split at h
    · cases h
      assumption
    · exact ih h

set_option maxRecDepth 8000 in
/-- Claim C8 counterexample: on a page where no selector matches and whose
title trims to 200 characters, the spec's acceptance rule (trimmed length
strictly between 0 and 200 for every candidate) yields null, but the code's
title fallback checks no upper bound and returns the cleaned, truncated
title. -/
theorem extractProductName_title_bound_cex :
    extractProductName [] longTitleDoc = some (String.mk (List.replicate 150 'a')) ∧
    (trimChars longTitleDoc.title.toList).length = 200 ∧
    extractProductNameSpec [] longTitleDoc = none := by
  refine ⟨by decide, by decide, by decide⟩

/-- Claim C8 (amended): extractProductName tries site-specific selectors,
then generic selectors — accepting a selector candidate only when its trimmed
length is strictly between 0 and 200 — and falls back to the page title,
which is accepted whenever nonempty after trimming, with no upper length
bound; every returned name passes through cleanProductName (whitespace
collapsed, separator glyphs replaced by dashes) and is truncated to at most
150 characters, and null is returned exactly when no candidate qualifies. -/
theorem extractProductName_amended (sels : List String) (doc : NameDoc)
    (nm c : String) (doc2 : NameDoc) (sels2 : List String)
    (h : extractProductName sels doc = some nm)
    (hc : firstValidName doc2 sels2 = some c) :
    nm.length ≤ 150 ∧
    (0 < c.length ∧ c.length < 200) ∧
    (firstValidName doc sels = none → firstValidName doc genericNameSelectors = none →
      trimChars doc.title.toList = [] → extractProductName sels doc = none) ∧
    (firstValidName doc sels = none → firstValidName doc genericNameSelectors = none →
      trimChars doc.title.toList ≠ [] →
      extractProductName sels doc =
        some (cleanProductName (String.mk (trimChars doc.title.toList)))) := by
  refine ⟨?_, firstValidName_bounds doc2 sels2 c hc, ?_, ?_⟩
  · simp only [extractProductName] at h
    split at h
    · cases h
      exact cleanProductName_length _
    · split at h
      · cases h
        exact cleanProductName_length _
      · split at h
        · cases h
          exact cleanProductName_length _
        · cases h
  · intro h1 h2 h3
    simp only [String.toList] at h3
    simp [extractProductName, h1, h2, h3]
  · intro h1 h2 h3
    have hpos : 0 < (trimChars doc.title.toList).length := List.length_pos.2 h3
    simp only [String.toList] at h3 hpos
    simp [extractProductName, h1, h2, hpos, h3]

/-- Witness for extractProductName_amended on a plain h1 page. -/
theorem extractProductName_amended_witness :
    extractProductName [] plainNameDoc = some "Produto X" ∧
    firstValidName plainNameDoc ["h1"] = some "Produto X" ∧
    ("Produto X" : String).length ≤ 150 ∧
    (0 < ("Produto X" : String).length ∧ ("Produto X" : String).length < 200) :=
  ⟨by decide, by decide,
    (extractProductName_amended [] plainNameDoc "Produto X" "Produto X" plainNameDoc
      ["h1"] (by decide) (by decide)).1,
    (extractProductName_amended [] plainNameDoc "Produto X" "Produto X" plainNameDoc
      ["h1"] (by decide) (by decide)).2.1⟩

/-- Claim C9 counterexample: from a fresh monitor (totalChecks 0), maintenance
runs during the 1st completed cycle and not during the 10th, because
processCheckResults consults stats.totalChecks before the finally block
increments it — so it does not run on every 10th completed cycle as
claimed. -/
theorem maintenance_phase_cex :
    (runCycles 0 (List.replicate 10 0)).map (fun a => a.maintenance) =
      [true, false, false, false, false, false, false, false, false, false] := by
  decide

theorem runCycles_getD (counts : List Nat) :
    ∀ t i : Nat, i < counts.length →
      (runCycles t counts).getD i (cycleActions 0 0) =
        cycleActions (t + i) (counts.getD i 0) := by
  induction counts with
  | nil =>
    intro t i h
    simp at h
  | cons k rest ih =>
    intro t i h
    cases i with
    | zero => simp [runCycles]
    | succ i =>
      simp only [runCycles, List.getD_cons_succ]
      rw [ih (t + 1) i (by simpa using h)]
      congr 1
      omega

/-- Claim C9 (amended): at the end of the cycle with zero-based index i from a
fresh monitor, a summary notification is requested iff at least 5
notifications fired in that cycle; maintenance (reactivating
error-deactivated products whose last check is more than 24 hours old, and
purging old history) runs exactly when i is divisible by 10 — that is, on
cycle numbers 1, 11, 21, ..., since the completed-cycle counter is read
before its post-cycle increment — and the store backup runs exactly when i is
divisible by 50 (cycle numbers 1, 51, ...).  Reactivation targets exactly the
inactive rows with a positive error count whose last check is older than 24
hours, and resets them to active with a cleared error trail. -/
theorem cycle_schedule (counts : List Nat) (i : Nat) (h : i < counts.length) :
    ((runCycles 0 counts).getD i (cycleActions 0 0)).summary =
      decide (5 ≤ counts.getD i 0) ∧
    ((runCycles 0 counts).getD i (cycleActions 0 0)).maintenance =
      decide (i % 10 = 0) ∧
    ((runCycles 0 counts).getD i (cycleActions 0 0)).backup =
      decide (i % 50 = 0) ∧
    (∀ p : Product, (reactivate p).isActive = true ∧ (reactivate p).errorCount = 0 ∧
      (reactivate p).lastError = none) ∧
    (∀ (now : ℚ) (p : Product), reactivatePred now p = true →
      p.isActive = false ∧ 0 < p.errorCount ∧
        ∃ t, p.lastChecked = some t ∧ t < now - 24 * 60) := by
  rw [runCycles_getD counts 0 i h]
  simp only [Nat.zero_add]
  refine ⟨rfl, rfl, ?_, ?_, ?_⟩
  · show (decide (i % 10 = 0) && decide (i % 50 = 0)) = decide (i % 50 = 0)
    by_cases h50 : i % 50 = 0
    · have h10 : i % 10 = 0 := by omega
      simp [h10, h50]
    · simp [h50]
  · intro p
    exact ⟨rfl, rfl, rfl⟩
  · intro now p hp
    simp only [reactivatePred, Bool.and_eq_true, Bool.not_eq_true'] at hp
    rcases hL : p.lastChecked with _ | t
    · rw [hL] at hp
      simp at hp
    · rw [hL] at hp
      exact ⟨hp.1.1, by simpa using hp.1.2, t, rfl, by simpa using hp.2⟩

/-- Witness for cycle_schedule at cycle index 10 of a 12-cycle run. -/
theorem cycle_schedule_witness :
    10 < (List.replicate 12 7 : List Nat).length ∧
    (((runCycles 0 (List.replicate 12 7)).getD 10 (cycleActions 0 0)).summary =
        decide (5 ≤ (List.replicate 12 7 : List Nat).getD 10 0) ∧
      ((runCycles 0 (List.replicate 12 7)).getD 10 (cycleActions 0 0)).maintenance =
        decide (10 % 10 = 0) ∧
      ((runCycles 0 (List.replicate 12 7)).getD 10 (cycleActions 0 0)).backup =
        decide (10 % 50 = 0) ∧
      (∀ p : Product, (reactivate p).isActive = true ∧ (reactivate p).errorCount = 0 ∧
        (reactivate p).lastError = none) ∧
      (∀ (now : ℚ) (p : Product), reactivatePred now p = true →
        p.isActive = false ∧ 0 < p.errorCount ∧
          ∃ t, p.lastChecked = some t ∧ t < now - 24 * 60)) :=
  ⟨by decide, cycle_schedule (List.replicate 12 7) 10 (by decide)⟩

theorem extractPriceCands_pos (cands : List String) (v : ℚ)
    (h : extractPriceCands cands = some v) : 0 < v := by
  induction cands with
  | nil => cases h
  | cons c rest ih =>
    simp only [extractPriceCands] at h
    split at h
    · cases h
      exact parsePrice_pos_of_some c v (by assumption)
    · exact ih h

/-- Claim C10: scrapePrice always returns a result object (every exception is
caught and converted), whose success flag is true exactly when the extracted
price is a number strictly greater than 0; whenever success is false the
price is null and the error is a non-null string, and whenever success is
true the error is null. -/
theorem scrapePrice_safety (step : FetchStep) :
    ((scrapePrice step).success = true ↔
      ∃ v, (scrapePrice step).price = some v ∧ 0 < v) ∧
    ((scrapePrice step).success = false →
      (scrapePrice step).price = none ∧ (scrapePrice step).error ≠ none) ∧
    ((scrapePrice step).success = true → (scrapePrice step).error = none) := by
  cases step with
  | invalidUrl => simp [scrapePrice]
  | requestThrew m => simp [scrapePrice]
  | fetched doc le =>
    cases le with
    | some m => simp [scrapePrice, extractData]
    | none =>
      rcases hp : extractPriceCands doc.priceCands with _ | v
      · simp [scrapePrice, extractData, hp]
      · have hv := extractPriceCands_pos doc.priceCands v hp
        simp [scrapePrice, extractData, hp, hv]

/-- Witness for scrapePrice_safety on a thrown request. -/
theorem scrapePrice_safety_witness :
    (scrapePrice (FetchStep.requestThrew "boom")).success = false ∧
    ((scrapePrice (FetchStep.requestThrew "boom")).price = none ∧
      (scrapePrice (FetchStep.requestThrew "boom")).error ≠ none) :=
  ⟨rfl, (scrapePrice_safety (FetchStep.requestThrew "boom")).2.1 rfl⟩

end BotFiscal
